import Mathlib

/-!
Verification of the mcba_usb SocketCAN driver (src/mcba_usb.c) against its
natural-language specification.  The driver's C functions are embedded
shallowly: machine bytes and 32-bit words become `Nat` with explicit
truncation where overflow matters, stateful code becomes explicit state
passing, and the private state of the adapter becomes a record.  The
companion header mcba_usb.h is not part of the sources; the constants and
bit-packing macros it defines are modelled from the specification and are
marked as such in their doc comments.
-/

namespace McbaUsb

/-- Modelled from the spec: `MCBA_DLC_MASK` from mcba_usb.h (not under src/).
The spec describes the DLC as a 4-bit field, so the mask keeps the low four
bits of the dlc byte. -/
def MCBA_DLC_MASK : Nat := 0xF

/-- Modelled from the spec: `MCBA_DLC_RTR_MASK` from mcba_usb.h (not under
src/).  The RTR status is carried as a single reserved bit alongside the
DLC, above the 4-bit DLC field. -/
def MCBA_DLC_RTR_MASK : Nat := 0x40

/-- Modelled from the spec: `MCBA_CAN_RTR_MASK` from mcba_usb.h (not under
src/), the host-side RTR flag bit OR-ed into `can_id` (linux `CAN_RTR_FLAG`). -/
def MCBA_CAN_RTR_MASK : Nat := 0x40000000

/-- Modelled from the spec: `MCBA_VER_UNDEFINED` from mcba_usb.h (not under
src/).  A one-byte sentinel marking a firmware-version field as undefined
before the first keep-alive report is seen. -/
def MCBA_VER_UNDEFINED : Nat := 0xFF

/-- Modelled from the spec: `MCBA_CAN_CLOCK` from mcba_usb.h (not under
src/).  The spec and the bitrate constant names in src/ fix the CAN clock
at 40 MHz. -/
def MCBA_CAN_CLOCK : Nat := 40000000

/-!
## Identifier packing (Wire Format)

The macros `MCBA_SET_S_SIDL`, `MCBA_SET_S_SIDH`, `MCBA_SET_E_SIDL`,
`MCBA_SET_E_SIDH`, `MCBA_SET_EIDL`, `MCBA_SET_EIDH`, `MCBA_CAN_GET_SID`,
`MCBA_CAN_GET_EID` and `MCBA_RX_IS_EXID` live in mcba_usb.h, which is not
under src/.  They are modelled from the spec: an 11-bit standard identifier
is packed across the two sid bytes with the low five bits of the low byte
reserved; a 29-bit extended identifier is packed across all four id bytes,
with the extended/standard selection encoded in a reserved bit (bit 3) of
the sidl byte.  Shifts and masks are written with division, remainder and
multiplication by powers of two.
-/

/-- Modelled from the spec: sidl byte of a standard frame holds identifier
bits 2..0 in its top three bits. -/
def MCBA_SET_S_SIDL (id : Nat) : Nat := (id % 8) * 32

/-- Modelled from the spec: sidh byte of a standard frame holds identifier
bits 10..3. -/
def MCBA_SET_S_SIDH (id : Nat) : Nat := (id / 8) % 256

/-- Modelled from the spec: sidl byte of an extended frame carries the
extended-selection bit (bit 3), identifier bits 17..16 in its low two bits
and identifier bits 20..18 in its top three bits. -/
def MCBA_SET_E_SIDL (id : Nat) : Nat :=
  8 + (id / 65536) % 4 + ((id / 262144) % 8) * 32

/-- Modelled from the spec: sidh byte of an extended frame holds identifier
bits 28..21. -/
def MCBA_SET_E_SIDH (id : Nat) : Nat := (id / 2097152) % 256

/-- Modelled from the spec: eidl byte holds extended identifier bits 7..0. -/
def MCBA_SET_EIDL (id : Nat) : Nat := id % 256

/-- Modelled from the spec: eidh byte holds extended identifier bits 15..8. -/
def MCBA_SET_EIDH (id : Nat) : Nat := (id / 256) % 256

/-- Modelled from the spec: a received message is an extended frame when the
reserved selection bit (bit 3) of its sidl byte is set. -/
def MCBA_RX_IS_EXID (sidl : Nat) : Bool := (sidl / 8) % 2 == 1

/-- Modelled from the spec: recover an 11-bit standard identifier from the
two sid bytes. -/
def MCBA_CAN_GET_SID (sidh sidl : Nat) : Nat := sidh * 8 + (sidl / 32) % 8

/-- Modelled from the spec: recover a 29-bit extended identifier from the
four id bytes. -/
def MCBA_CAN_GET_EID (sidh sidl eidh eidl : Nat) : Nat :=
  sidh * 2097152 + ((sidl / 32) % 8) * 262144 + (sidl % 4) * 65536 +
    eidh * 256 + eidl

/-- Encoding of a CAN identifier into the four id bytes of a transmit
message, as done by `mcba_usb_start_xmit` (src/mcba_usb.c lines 439-450):
the extended branch fills all four bytes using the extended setters; the
standard branch fills the sid bytes and zeroes the eid bytes.  The result
is (sidh, sidl, eidh, eidl). -/
def mcba_encode_id (id : Nat) (extended : Bool) : Nat × Nat × Nat × Nat :=
  if extended then
    (MCBA_SET_E_SIDH id, MCBA_SET_E_SIDL id, MCBA_SET_EIDH id,
     MCBA_SET_EIDL id)
  else
    (MCBA_SET_S_SIDH id, MCBA_SET_S_SIDL id, 0, 0)

/-- Decoding of the four id bytes of a received message into an identifier
and the extended flag, as done by `mcba_usb_process_can`
(src/mcba_usb.c lines 105-108): the extended getter is used when the
extended selection bit of sidl is set, the standard getter otherwise. -/
def mcba_decode_id (sidh sidl eidh eidl : Nat) : Nat × Bool :=
  if MCBA_RX_IS_EXID sidl then
    (MCBA_CAN_GET_EID sidh sidl eidh eidl, true)
  else
    (MCBA_CAN_GET_SID sidh sidl, false)

/-!
## Receive path for CAN data messages
-/

/-- A received CAN message record (struct mcba_usb_msg_can): the four id
bytes, the dlc byte and the eight payload bytes. -/
structure McbaUsbMsgCan where
  sidh : Nat
  sidl : Nat
  eidh : Nat
  eidl : Nat
  dlc : Nat
  data : List Nat
  deriving DecidableEq, Repr

/-- A host CAN frame as filled in by the receive path.  `can_dlc` is the
value stored in `cf->can_dlc`, which the code then passes to `memcpy` as
the number of payload bytes to copy. -/
structure CanFrame where
  can_id : Nat
  can_dlc : Nat
  data : List Nat
  deriving DecidableEq, Repr

/-- Embedding of `mcba_usb_process_can` (src/mcba_usb.c lines 94-120):
decode the identifier, OR in the RTR flag when the dlc byte has the RTR
bit set, mask the dlc byte with `MCBA_DLC_MASK` into `can_dlc`, and copy
`can_dlc` payload bytes.  The copy is modelled by `List.take can_dlc` on
the message payload; `can_dlc` itself is the length handed to `memcpy`. -/
def mcba_usb_process_can (m : McbaUsbMsgCan) : CanFrame :=
  let idExt := mcba_decode_id m.sidh m.sidl m.eidh m.eidl
  let rtrBit := if m.dlc &&& MCBA_DLC_RTR_MASK ≠ 0 then MCBA_CAN_RTR_MASK else 0
  let dlc := m.dlc &&& MCBA_DLC_MASK
  { can_id := idExt.1 + rtrBit
    can_dlc := dlc
    data := m.data.take dlc }

/-- Decoding of the four id bytes given as the tuple produced by
`mcba_encode_id`. -/
def mcba_decode_bytes (b : Nat × Nat × Nat × Nat) : Nat × Bool :=
  mcba_decode_id b.1 b.2.1 b.2.2.1 b.2.2.2

/-!
## Device state and keep-alive handlers

The fields of `struct mcba_priv` that the keep-alive handlers touch:
firmware versions of the two controllers, the error-counter pair `bec`
and the termination state.  The tested baseline version pairs
(`MCBA_VER_USB_MAJOR/MINOR`, `MCBA_VER_CAN_MAJOR/MINOR`) are defined in
mcba_usb.h, which is not under src/, so the handlers take them as
parameters; every claim settled here is independent of their values.
-/

/-- The keep-alive-relevant fields of `struct mcba_priv`. -/
structure McbaPriv where
  pic_usb_sw_ver_major : Nat
  pic_usb_sw_ver_minor : Nat
  pic_can_sw_ver_major : Nat
  pic_can_sw_ver_minor : Nat
  termination_state : Nat
  bec_txerr : Nat
  bec_rxerr : Nat
  deriving DecidableEq, Repr

/-- Device state as initialised by `mcba_usb_probe`
(src/mcba_usb.c lines 833-836): all four firmware-version fields start as
`MCBA_VER_UNDEFINED`. -/
def mcbaProbeInit : McbaPriv :=
  { pic_usb_sw_ver_major := MCBA_VER_UNDEFINED
    pic_usb_sw_ver_minor := MCBA_VER_UNDEFINED
    pic_can_sw_ver_major := MCBA_VER_UNDEFINED
    pic_can_sw_ver_minor := MCBA_VER_UNDEFINED
    termination_state := 0
    bec_txerr := 0
    bec_rxerr := 0 }

/-- The untested-firmware warn condition exactly as written in the source
(src/mcba_usb.c lines 139-140 and 178-179):
`!(baseline_major == reported_major) && (baseline_minor == reported_minor)`. -/
def mcba_untested_warn (baseMajor baseMinor repMajor repMinor : Nat) : Bool :=
  (!(baseMajor == repMajor)) && (baseMinor == repMinor)

/-- Fields of `struct mcba_usb_msg_keep_alive_usb` used by the handler. -/
structure McbaUsbMsgKeepAliveUsb where
  termination_state : Nat
  soft_ver_major : Nat
  soft_ver_minor : Nat
  deriving DecidableEq, Repr

/-- Fields of `struct mcba_usb_msg_keep_alive_can` used by the handler. -/
structure McbaUsbMsgKeepAliveCan where
  tx_err_cnt : Nat
  rx_err_cnt : Nat
  soft_ver_major : Nat
  soft_ver_minor : Nat
  deriving DecidableEq, Repr

/-- Embedding of `mcba_usb_process_keep_alive_usb`
(src/mcba_usb.c lines 122-151).  Returns the new state together with two
observable events: whether the first-seen version notification was printed
(the branch guarded by both stored version fields being undefined), and
whether the untested-firmware warning was printed inside that branch.
The stored version fields and the termination state are assigned
unconditionally after the branch. -/
def mcba_usb_process_keep_alive_usb (baseMajor baseMinor : Nat)
    (s : McbaPriv) (m : McbaUsbMsgKeepAliveUsb) : McbaPriv × Bool × Bool :=
  let firstSeen := (s.pic_usb_sw_ver_major == MCBA_VER_UNDEFINED) &&
                   (s.pic_usb_sw_ver_minor == MCBA_VER_UNDEFINED)
  let warned := firstSeen &&
    mcba_untested_warn baseMajor baseMinor m.soft_ver_major m.soft_ver_minor
  ({ s with
      pic_usb_sw_ver_major := m.soft_ver_major
      pic_usb_sw_ver_minor := m.soft_ver_minor
      termination_state := m.termination_state },
   firstSeen, warned)

/-- Embedding of `mcba_usb_process_keep_alive_can`
(src/mcba_usb.c lines 153-192), with the same two observable events as the
USB handler.  The error counters and the stored version fields are
assigned unconditionally after the first-seen branch. -/
def mcba_usb_process_keep_alive_can (baseMajor baseMinor : Nat)
    (s : McbaPriv) (m : McbaUsbMsgKeepAliveCan) : McbaPriv × Bool × Bool :=
  let firstSeen := (s.pic_can_sw_ver_major == MCBA_VER_UNDEFINED) &&
                   (s.pic_can_sw_ver_minor == MCBA_VER_UNDEFINED)
  let warned := firstSeen &&
    mcba_untested_warn baseMajor baseMinor m.soft_ver_major m.soft_ver_minor
  ({ s with
      bec_txerr := m.tx_err_cnt
      bec_rxerr := m.rx_err_cnt
      pic_can_sw_ver_major := m.soft_ver_major
      pic_can_sw_ver_minor := m.soft_ver_minor },
   firstSeen, warned)

/-- Embedding of `mcba_net_get_berr_counter` (src/mcba_usb.c lines 647-656):
returns the stored error-counter pair. -/
def mcba_net_get_berr_counter (s : McbaPriv) : Nat × Nat :=
  (s.bec_txerr, s.bec_rxerr)

/-!
## Transmit context pool

`MCBA_MAX_TX_URBS` and `MCBA_CTX_FREE` are defined in mcba_usb.h, which is
not under src/.  Following the spec, the pool development is parametric in
the capacity `N`; the free sentinel stored in a slot's `ndx` field must
differ from every valid slot index and is modelled as `N` itself.  A pool
is the list of the `ndx` fields of `priv->tx_context[0 .. N-1]`.
-/

/-- Modelled from the spec: `MCBA_CTX_FREE` from mcba_usb.h (not under
src/), the sentinel held in a context's `ndx` field while the slot is
free; it lies outside the valid slot indices `0 .. N-1`. -/
def MCBA_CTX_FREE (N : Nat) : Nat := N

/-- Embedding of `mcba_init_ctx` (src/mcba_usb.c lines 359-366): every
slot starts free. -/
def mcba_init_ctx (N : Nat) : List Nat := List.replicate N (MCBA_CTX_FREE N)

/-- The scanning loop of `mcba_usb_get_free_ctx` (src/mcba_usb.c lines
369-384) with the loop counter `i` made explicit: find the first slot
whose `ndx` is the free sentinel, store that slot's own index into it and
return the index; return none when every slot is occupied. -/
def acquireAux (free i : Nat) : List Nat → Option Nat × List Nat
  | [] => (none, [])
  | x :: xs =>
    if x = free then (some i, i :: xs)
    else ((acquireAux free (i + 1) xs).1, x :: (acquireAux free (i + 1) xs).2)

/-- Embedding of `mcba_usb_get_free_ctx`: scan the pool from index 0. -/
def mcba_usb_get_free_ctx (N : Nat) (pool : List Nat) : Option Nat × List Nat :=
  acquireAux (MCBA_CTX_FREE N) 0 pool

/-- Embedding of `mcba_usb_free_ctx` (src/mcba_usb.c lines 387-393): mark
slot `i` free again. -/
def mcba_usb_free_ctx (N : Nat) (pool : List Nat) (i : Nat) : List Nat :=
  pool.set i (MCBA_CTX_FREE N)

/-- `k` successive acquisitions: the list of returned slot indices and the
final pool. -/
def acquireMany (N : Nat) : Nat → List Nat → List (Option Nat) × List Nat
  | 0, pool => ([], pool)
  | k + 1, pool =>
    ((mcba_usb_get_free_ctx N pool).1 ::
       (acquireMany N k (mcba_usb_get_free_ctx N pool).2).1,
     (acquireMany N k (mcba_usb_get_free_ctx N pool).2).2)

/-- Pool states reachable from the initialised pool through acquires and
releases. -/
inductive PoolReachable (N : Nat) : List Nat → Prop
  | init : PoolReachable N (mcba_init_ctx N)
  | acquire {pool : List Nat} : PoolReachable N pool →
      PoolReachable N (mcba_usb_get_free_ctx N pool).2
  | release {pool : List Nat} (i : Nat) : PoolReachable N pool →
      PoolReachable N (mcba_usb_free_ctx N pool i)

/-- Slot invariant relative to the scan start `i`: each slot holds either
the free sentinel or its own absolute index. -/
def SlotInvAux (free : Nat) : Nat → List Nat → Prop
  | _, [] => True
  | i, x :: xs => (x = free ∨ x = i) ∧ SlotInvAux free (i + 1) xs

/-!
## Bit timing
-/

/-- Truncation to an unsigned 32-bit value, applied wherever the C code
performs `u32` arithmetic that could overflow. -/
def u32 (n : Nat) : Nat := n % 4294967296

/-- The fields of `struct can_bittiming` written by the driver. -/
structure CanBittiming where
  sjw : Nat
  prop_seg : Nat
  phase_seg1 : Nat
  phase_seg2 : Nat
  brp : Nat
  tq : Nat
  bitrate : Nat
  sample_point : Nat
  deriving DecidableEq, Repr

/-- Embedding of `mcba_net_calc_bittiming` (src/mcba_usb.c lines 665-679):
store the four segment values and the prescaler, then derive the time
quantum in nanoseconds, the bitrate and the sample point with unsigned
32-bit arithmetic. -/
def mcba_net_calc_bittiming (sjw prop seg1 seg2 brp : Nat) : CanBittiming :=
  let tq := u32 (u32 (brp * 1000) / (MCBA_CAN_CLOCK / 1000000))
  let total := u32 (u32 (u32 (sjw + prop) + seg1) + seg2)
  let presample := u32 (u32 (sjw + prop) + seg1)
  { sjw := sjw
    prop_seg := prop
    phase_seg1 := seg1
    phase_seg2 := seg2
    brp := brp
    tq := tq
    bitrate := u32 (1000000000 / u32 (total * tq))
    sample_point := u32 (u32 (presample * 1000) / total) }

/-- Modelled from the spec: the 18 supported-bitrate constants
`MCBA_BITRATE_*_40MHZ` from mcba_usb.h (not under src/); their values are
pinned by the driver's own unsupported-bitrate error message
(src/mcba_usb.c lines 800-803). -/
def MCBA_BITRATE_20_KBPS_40MHZ : Nat := 20000
/-- Modelled from the spec: see `MCBA_BITRATE_20_KBPS_40MHZ`. -/
def MCBA_BITRATE_33_3KBPS_40MHZ : Nat := 33333
/-- Modelled from the spec: see `MCBA_BITRATE_20_KBPS_40MHZ`. -/
def MCBA_BITRATE_50KBPS_40MHZ : Nat := 50000
/-- Modelled from the spec: see `MCBA_BITRATE_20_KBPS_40MHZ`. -/
def MCBA_BITRATE_80KBPS_40MHZ : Nat := 80000
/-- Modelled from the spec: see `MCBA_BITRATE_20_KBPS_40MHZ`. -/
def MCBA_BITRATE_83_3KBPS_40MHZ : Nat := 83333
/-- Modelled from the spec: see `MCBA_BITRATE_20_KBPS_40MHZ`. -/
def MCBA_BITRATE_100KBPS_40MHZ : Nat := 100000
/-- Modelled from the spec: see `MCBA_BITRATE_20_KBPS_40MHZ`. -/
def MCBA_BITRATE_125KBPS_40MHZ : Nat := 125000
/-- Modelled from the spec: see `MCBA_BITRATE_20_KBPS_40MHZ`. -/
def MCBA_BITRATE_150KBPS_40MHZ : Nat := 150000
/-- Modelled from the spec: see `MCBA_BITRATE_20_KBPS_40MHZ`. -/
def MCBA_BITRATE_175KBPS_40MHZ : Nat := 175000
/-- Modelled from the spec: see `MCBA_BITRATE_20_KBPS_40MHZ`. -/
def MCBA_BITRATE_200KBPS_40MHZ : Nat := 200000
/-- Modelled from the spec: see `MCBA_BITRATE_20_KBPS_40MHZ`. -/
def MCBA_BITRATE_225KBPS_40MHZ : Nat := 225000
/-- Modelled from the spec: see `MCBA_BITRATE_20_KBPS_40MHZ`. -/
def MCBA_BITRATE_250KBPS_40MHZ : Nat := 250000
/-- Modelled from the spec: see `MCBA_BITRATE_20_KBPS_40MHZ`. -/
def MCBA_BITRATE_275KBPS_40MHZ : Nat := 275000
/-- Modelled from the spec: see `MCBA_BITRATE_20_KBPS_40MHZ`. -/
def MCBA_BITRATE_300KBPS_40MHZ : Nat := 300000
/-- Modelled from the spec: see `MCBA_BITRATE_20_KBPS_40MHZ`. -/
def MCBA_BITRATE_500KBPS_40MHZ : Nat := 500000
/-- Modelled from the spec: see `MCBA_BITRATE_20_KBPS_40MHZ`. -/
def MCBA_BITRATE_625KBPS_40MHZ : Nat := 625000
/-- Modelled from the spec: see `MCBA_BITRATE_20_KBPS_40MHZ`. -/
def MCBA_BITRATE_800KBPS_40MHZ : Nat := 800000
/-- Modelled from the spec: see `MCBA_BITRATE_20_KBPS_40MHZ`. -/
def MCBA_BITRATE_1000KBPS_40MHZ : Nat := 1000000

/-- The 18 supported bitrates, in the order of the switch cases of
`mcba_net_set_bittiming` (which is also the order of the driver's error
message). -/
def mcbaSupportedBitrates : List Nat :=
  [MCBA_BITRATE_20_KBPS_40MHZ, MCBA_BITRATE_33_3KBPS_40MHZ,
   MCBA_BITRATE_50KBPS_40MHZ, MCBA_BITRATE_80KBPS_40MHZ,
   MCBA_BITRATE_83_3KBPS_40MHZ, MCBA_BITRATE_100KBPS_40MHZ,
   MCBA_BITRATE_125KBPS_40MHZ, MCBA_BITRATE_150KBPS_40MHZ,
   MCBA_BITRATE_175KBPS_40MHZ, MCBA_BITRATE_200KBPS_40MHZ,
   MCBA_BITRATE_225KBPS_40MHZ, MCBA_BITRATE_250KBPS_40MHZ,
   MCBA_BITRATE_275KBPS_40MHZ, MCBA_BITRATE_300KBPS_40MHZ,
   MCBA_BITRATE_500KBPS_40MHZ, MCBA_BITRATE_625KBPS_40MHZ,
   MCBA_BITRATE_800KBPS_40MHZ, MCBA_BITRATE_1000KBPS_40MHZ]

/-- Embedding of `mcba_net_set_bittiming` (src/mcba_usb.c lines 684-809):
switch on the requested bitrate; on a supported rate compute the bit-timing
fields and send the change-bitrate command with the shown 16-bit value
(`Except.ok (fields, command value)`); on any other rate return `-EINVAL`
(-22) without producing fields or a command. -/
def mcba_net_set_bittiming (bitrate : Nat) : Except Int (CanBittiming × Nat) :=
  if bitrate = MCBA_BITRATE_20_KBPS_40MHZ then
    .ok (mcba_net_calc_bittiming 1 5 8 6 100, 20)
  else if bitrate = MCBA_BITRATE_33_3KBPS_40MHZ then
    .ok (mcba_net_calc_bittiming 1 8 8 8 48, 33)
  else if bitrate = MCBA_BITRATE_50KBPS_40MHZ then
    .ok (mcba_net_calc_bittiming 1 8 7 4 40, 50)
  else if bitrate = MCBA_BITRATE_80KBPS_40MHZ then
    .ok (mcba_net_calc_bittiming 1 8 8 8 20, 80)
  else if bitrate = MCBA_BITRATE_83_3KBPS_40MHZ then
    .ok (mcba_net_calc_bittiming 1 8 8 7 20, 83)
  else if bitrate = MCBA_BITRATE_100KBPS_40MHZ then
    .ok (mcba_net_calc_bittiming 1 1 5 3 40, 100)
  else if bitrate = MCBA_BITRATE_125KBPS_40MHZ then
    .ok (mcba_net_calc_bittiming 1 3 8 8 16, 125)
  else if bitrate = MCBA_BITRATE_150KBPS_40MHZ then
    .ok (mcba_net_calc_bittiming 1 8 6 4 14, 150)
  else if bitrate = MCBA_BITRATE_175KBPS_40MHZ then
    .ok (mcba_net_calc_bittiming 1 8 6 4 12, 175)
  else if bitrate = MCBA_BITRATE_200KBPS_40MHZ then
    .ok (mcba_net_calc_bittiming 1 8 8 8 8, 200)
  else if bitrate = MCBA_BITRATE_225KBPS_40MHZ then
    .ok (mcba_net_calc_bittiming 1 8 8 5 8, 225)
  else if bitrate = MCBA_BITRATE_250KBPS_40MHZ then
    .ok (mcba_net_calc_bittiming 1 3 8 8 8, 250)
  else if bitrate = MCBA_BITRATE_275KBPS_40MHZ then
    .ok (mcba_net_calc_bittiming 1 8 8 7 6, 275)
  else if bitrate = MCBA_BITRATE_300KBPS_40MHZ then
    .ok (mcba_net_calc_bittiming 1 8 8 5 6, 300)
  else if bitrate = MCBA_BITRATE_500KBPS_40MHZ then
    .ok (mcba_net_calc_bittiming 1 3 8 8 4, 500)
  else if bitrate = MCBA_BITRATE_625KBPS_40MHZ then
    .ok (mcba_net_calc_bittiming 1 1 4 2 8, 625)
  else if bitrate = MCBA_BITRATE_800KBPS_40MHZ then
    .ok (mcba_net_calc_bittiming 1 8 8 8 2, 800)
  else if bitrate = MCBA_BITRATE_1000KBPS_40MHZ then
    .ok (mcba_net_calc_bittiming 1 3 8 8 2, 1000)
  else
    .error (-22)

/-!
## Receive dispatcher
-/

/-- The record-slicing loop of `mcba_usb_read_bulk_callback`
(src/mcba_usb.c lines 261-273), tracking the remaining byte count
`len = actual_length - pos`: while bytes remain, a remainder shorter than
one fixed-size record reports a single format error and stops; otherwise
one complete record is processed and the loop advances by the record
size.  Returns (records processed, format errors reported). -/
def mcba_usb_read_bulk_loop (msgSize : Nat) (hS : 0 < msgSize) (len : Nat) :
    Nat × Nat :=
  if _h0 : len = 0 then (0, 0)
  else if _hle : msgSize ≤ len then
    ((mcba_usb_read_bulk_loop msgSize hS (len - msgSize)).1 + 1,
     (mcba_usb_read_bulk_loop msgSize hS (len - msgSize)).2)
  else (0, 1)
termination_by len
decreasing_by all_goals omega

/-!
## Transmit path
-/

/-- Return values of the transmit hook. -/
inductive NetdevTx
  | TX_OK
  | TX_BUSY
  deriving DecidableEq, Repr

/-- The allocation/submission outcomes the environment can inflict on one
transmit call: URB allocation failure, coherent-buffer allocation failure,
submission failure with an error code, or success. -/
inductive TxOutcome
  | urbAllocFail
  | bufAllocFail
  | submitFail (err : Int)
  | success
  deriving DecidableEq, Repr

/-- Result of one `mcba_usb_xmit` call: the return value, the pool after
the call, the `tx_dropped` counter after the call, and whether
`mcba_usb_free_ctx` was called during the call. -/
structure XmitResult where
  ret : NetdevTx
  pool : List Nat
  txDropped : Nat
  ctxFreed : Bool
  deriving DecidableEq, Repr

/-- Embedding of `mcba_usb_xmit` (src/mcba_usb.c lines 468-546): acquire a
context, returning `NETDEV_TX_BUSY` when the pool is exhausted; on any of
the three failure outcomes fall through the `failed`/`nomembuf`/`nomem`
labels, which increment `tx_dropped` and return `NETDEV_TX_OK`; on
success return `NETDEV_TX_OK`.  No path of this function calls
`mcba_usb_free_ctx`; the context is released only by
`mcba_usb_write_bulk_callback`. -/
def mcba_usb_xmit (N : Nat) (pool : List Nat) (txDropped : Nat)
    (outcome : TxOutcome) : XmitResult :=
  match (mcba_usb_get_free_ctx N pool).1 with
  | none =>
      ⟨NetdevTx.TX_BUSY, (mcba_usb_get_free_ctx N pool).2, txDropped, false⟩
  | some _ =>
    match outcome with
    | TxOutcome.success =>
        ⟨NetdevTx.TX_OK, (mcba_usb_get_free_ctx N pool).2, txDropped, false⟩
    | _ =>
        ⟨NetdevTx.TX_OK, (mcba_usb_get_free_ctx N pool).2, txDropped + 1,
         false⟩

/-- Pool effect of `mcba_usb_write_bulk_callback` (src/mcba_usb.c lines
395-426): the completion callback releases the finished transfer's
context. -/
def mcba_usb_write_bulk_callback (N : Nat) (pool : List Nat) (ndx : Nat) :
    List Nat :=
  mcba_usb_free_ctx N pool ndx

theorem acquireAux_append (free : Nat) (l₁ l₂ : List Nat)
    (h : ∀ x ∈ l₁, x ≠ free) : ∀ i,
    acquireAux free i (l₁ ++ l₂) =
      ((acquireAux free (i + l₁.length) l₂).1,
       l₁ ++ (acquireAux free (i + l₁.length) l₂).2) := by
  induction l₁ with
  | nil => intro i; simp [acquireAux]
  | cons x xs ih =>
    intro i
    have hx : x ≠ free := h x (List.mem_cons_self x xs)
    have hxs : ∀ y ∈ xs, y ≠ free := fun y hy => h y (List.mem_cons_of_mem x hy)
    have hlen : i + (x :: xs).length = i + 1 + xs.length := by
      simp [List.length_cons]; omega
    rw [List.cons_append]
    simp only [acquireAux, if_neg hx]
    rw [ih hxs (i + 1), hlen]
    rfl

theorem acquireAux_none (free : Nat) (l : List Nat)
    (h : ∀ x ∈ l, x ≠ free) : ∀ i, acquireAux free i l = (none, l) := by
  induction l with
  | nil => intro i; rfl
  | cons x xs ih =>
    intro i
    have hx : x ≠ free := h x (List.mem_cons_self x xs)
    have hxs : ∀ y ∈ xs, y ≠ free := fun y hy => h y (List.mem_cons_of_mem x hy)
    simp only [acquireAux, if_neg hx, ih hxs (i + 1)]

theorem acquireAux_some (free : Nat) (l : List Nat) :
    ∀ i, free ∈ l → i + l.length ≤ free →
    ((acquireAux free i l).1.isSome = true ∧
     (acquireAux free i l).2.count free + 1 = l.count free) := by
  induction l with
  | nil => intro i hmem; exact absurd hmem (List.not_mem_nil free)
  | cons x xs ih =>
    intro i hmem hle
    by_cases hx : x = free
    · have hi : (i == free) = false := by
        simp only [beq_eq_false_iff_ne, ne_eq]
        simp only [List.length_cons] at hle
        omega
      subst hx
      simp [acquireAux, List.count_cons, hi]
    · have hmem' : free ∈ xs := by
        rcases List.mem_cons.mp hmem with h | h
        · exact absurd h.symm hx
        · exact h
      have hle' : i + 1 + xs.length ≤ free := by
        simp only [List.length_cons] at hle
        omega
      have hxf : (x == free) = false := by
        simp only [beq_eq_false_iff_ne, ne_eq]
        exact hx
      obtain ⟨h1, h2⟩ := ih (i + 1) hmem' hle'
      simp only [acquireAux, if_neg hx, List.count_cons, hxf]
      constructor
      · exact h1
      · simpa using h2

theorem acquireAux_slotInv (free : Nat) (l : List Nat) :
    ∀ i, SlotInvAux free i l → SlotInvAux free i (acquireAux free i l).2 := by
  induction l with
  | nil => intro i h; exact h
  | cons x xs ih =>
    intro i h
    obtain ⟨hx, hxs⟩ := h
    by_cases hxf : x = free
    · simp only [acquireAux, if_pos hxf]
      exact ⟨Or.inr rfl, hxs⟩
    · simp only [acquireAux, if_neg hxf]
      exact ⟨hx, ih (i + 1) hxs⟩

theorem set_slotInv (free : Nat) (l : List Nat) :
    ∀ i j, SlotInvAux free i l → SlotInvAux free i (l.set j free) := by
  induction l with
  | nil => intro i j h; exact h
  | cons x xs ih =>
    intro i j h
    obtain ⟨hx, hxs⟩ := h
    cases j with
    | zero => exact ⟨Or.inl rfl, hxs⟩
    | succ j => exact ⟨hx, ih (i + 1) j hxs⟩

theorem replicate_slotInv (free : Nat) : ∀ m i,
    SlotInvAux free i (List.replicate m free) := by
  intro m
  induction m with
  | zero => intro i; trivial
  | succ m ih => intro i; exact ⟨Or.inl rfl, ih (i + 1)⟩

theorem slotInv_filter (free : Nat) (l : List Nat) : ∀ i,
    SlotInvAux free i l →
    ((l.filter (fun x => x != free)).Nodup ∧
     ∀ x ∈ l.filter (fun x => x != free), i ≤ x) := by
  induction l with
  | nil => intro i _; exact ⟨List.nodup_nil, by intro x hx; cases hx⟩
  | cons x xs ih =>
    intro i h
    obtain ⟨hx, hxs⟩ := h
    obtain ⟨nd, lb⟩ := ih (i + 1) hxs
    by_cases hxf : x = free
    · subst hxf
      rw [List.filter_cons_of_neg (by simp)]
      exact ⟨nd, fun y hy => le_trans (Nat.le_succ i) (lb y hy)⟩
    · have heq : x = i := by tauto
      rw [List.filter_cons_of_pos (by simpa using hxf)]
      constructor
      · refine List.Nodup.cons ?_ nd
        intro hmem
        have := lb x hmem
        omega
      · intro y hy
        rcases List.mem_cons.mp hy with h | h
        · omega
        · exact le_trans (Nat.le_succ i) (lb y h)

theorem poolReachable_slotInv (N : Nat) (pool : List Nat)
    (h : PoolReachable N pool) : SlotInvAux (MCBA_CTX_FREE N) 0 pool := by
  induction h with
  | init => exact replicate_slotInv (MCBA_CTX_FREE N) N 0
  | acquire _ ih => exact acquireAux_slotInv (MCBA_CTX_FREE N) _ 0 ih
  | release i _ ih => exact set_slotInv (MCBA_CTX_FREE N) _ 0 i ih

theorem mem_set_self (v : Nat) : ∀ (l : List Nat) (j : Nat),
    j < l.length → v ∈ l.set j v := by
  intro l
  induction l with
  | nil => intro j hj; simp at hj
  | cons x xs ih =>
    intro j hj
    cases j with
    | zero => exact List.mem_cons_self v xs
    | succ j =>
      exact List.mem_cons_of_mem x (ih j (by simpa using hj))

theorem count_set_of_all_ne (v : Nat) : ∀ (l : List Nat) (j : Nat),
    j < l.length → (∀ x ∈ l, x ≠ v) → (l.set j v).count v = 1 := by
  intro l
  induction l with
  | nil => intro j hj; simp at hj
  | cons x xs ih =>
    intro j hj hne
    have hxs : ∀ y ∈ xs, y ≠ v := fun y hy => hne y (List.mem_cons_of_mem x hy)
    cases j with
    | zero =>
      have : xs.count v = 0 := List.count_eq_zero.mpr fun hm => hxs v hm rfl
      simp [List.count_cons, this]
    | succ j =>
      have hx : (x == v) = false := by
        simp only [beq_eq_false_iff_ne, ne_eq]
        exact hne x (List.mem_cons_self x xs)
      have := ih j (by simpa using hj) hxs
      simp [List.count_cons, hx, this]

theorem get_free_ctx_step (N k : Nat) (hk : k < N) :
    mcba_usb_get_free_ctx N (List.range k ++ List.replicate (N - k) N) =
      (some k, List.range (k + 1) ++ List.replicate (N - (k + 1)) N) := by
  have hr : ∀ x ∈ List.range k, x ≠ N := by
    intro x hx
    have := List.mem_range.mp hx
    omega
  have hrep : List.replicate (N - k) N = N :: List.replicate (N - (k + 1)) N := by
    rw [show N - k = (N - (k + 1)) + 1 by omega]
    rfl
  unfold mcba_usb_get_free_ctx MCBA_CTX_FREE
  rw [acquireAux_append N _ _ hr 0, hrep]
  simp only [acquireAux, if_pos rfl, List.length_range, Nat.zero_add]
  rw [List.range_succ]
  simp

theorem acquireMany_steps (N k : Nat) : ∀ j, j + k ≤ N →
    acquireMany N k (List.range j ++ List.replicate (N - j) N) =
      ((List.range' j k).map some,
       List.range (j + k) ++ List.replicate (N - (j + k)) N) := by
  induction k with
  | zero => intro j h; simp [acquireMany]
  | succ k ih =>
    intro j h
    have hj : j < N := by omega
    simp only [acquireMany, get_free_ctx_step N j hj]
    rw [ih (j + 1) (by omega)]
    have h1 : j + 1 + k = j + (k + 1) := by omega
    rw [h1, List.range'_succ]
    simp

/-- C2: from the all-free pool of capacity N, N successive acquires all
succeed and return the pairwise-distinct slot indices 0 .. N-1; the
(N+1)-th acquire without a release returns none; from any fully-occupied
pool, after a single release exactly one more acquire succeeds (the next
one returns none again); and every pool reachable through init, acquire
and release has pairwise-distinct live slot indices. -/
theorem mcba_ctx_pool (N : Nat) :
    ((acquireMany N N (mcba_init_ctx N)).1 = (List.range N).map some ∧
     (∀ r ∈ (acquireMany N N (mcba_init_ctx N)).1, r.isSome = true) ∧
     (acquireMany N N (mcba_init_ctx N)).1.Nodup ∧
     (mcba_usb_get_free_ctx N (acquireMany N N (mcba_init_ctx N)).2).1 =
       none) ∧
    (∀ pool j, pool.length = N → (∀ x ∈ pool, x ≠ MCBA_CTX_FREE N) →
      j < N →
      ((mcba_usb_get_free_ctx N (mcba_usb_free_ctx N pool j)).1.isSome =
         true ∧
       (mcba_usb_get_free_ctx N
         (mcba_usb_get_free_ctx N (mcba_usb_free_ctx N pool j)).2).1 =
         none)) ∧
    (∀ pool, PoolReachable N pool →
      (pool.filter (fun x => x != MCBA_CTX_FREE N)).Nodup) := by
  have hinit : mcba_init_ctx N =
      List.range 0 ++ List.replicate (N - 0) N := by
    simp [mcba_init_ctx, MCBA_CTX_FREE]
  have hall := acquireMany_steps N N 0 (by omega)
  have hrangeN : ∀ x ∈ List.range N, x ≠ MCBA_CTX_FREE N := by
    intro x hx
    have := List.mem_range.mp hx
    simp only [MCBA_CTX_FREE]
    omega
  refine ⟨⟨?_, ?_, ?_, ?_⟩, ?_, ?_⟩
  · rw [hinit, hall]
    simp [List.range_eq_range']
  · rw [hinit, hall]
    intro r hr
    rcases List.mem_map.mp hr with ⟨y, _, rfl⟩
    rfl
  · rw [hinit, hall]
    exact (List.nodup_range' 0 N).map (Option.some_injective Nat)
  · rw [hinit, hall]
    simp only [Nat.zero_add, Nat.sub_self, List.replicate_zero,
      List.append_nil]
    exact congrArg Prod.fst
      (acquireAux_none (MCBA_CTX_FREE N) (List.range N) hrangeN 0)
  · intro pool j hlen hfull hj
    have hjlen : j < pool.length := by omega
    have hmem : MCBA_CTX_FREE N ∈ mcba_usb_free_ctx N pool j :=
      mem_set_self (MCBA_CTX_FREE N) pool j hjlen
    have hle : 0 + (mcba_usb_free_ctx N pool j).length ≤ MCBA_CTX_FREE N := by
      simp [mcba_usb_free_ctx, List.length_set, hlen, MCBA_CTX_FREE]
    obtain ⟨hsome, hcount⟩ :=
      acquireAux_some (MCBA_CTX_FREE N) (mcba_usb_free_ctx N pool j) 0
        hmem hle
    have hone : (mcba_usb_free_ctx N pool j).count (MCBA_CTX_FREE N) = 1 :=
      count_set_of_all_ne (MCBA_CTX_FREE N) pool j hjlen hfull
    refine ⟨hsome, ?_⟩
    have hzero :
        (acquireAux (MCBA_CTX_FREE N) 0 (mcba_usb_free_ctx N pool j)).2.count
          (MCBA_CTX_FREE N) = 0 := by
      omega
    have hnomem : ∀ x ∈
        (mcba_usb_get_free_ctx N (mcba_usb_free_ctx N pool j)).2,
        x ≠ MCBA_CTX_FREE N := by
      intro x hx hxv
      subst hxv
      exact absurd hx (List.count_eq_zero.mp hzero)
    exact congrArg Prod.fst
      (acquireAux_none (MCBA_CTX_FREE N) _ hnomem 0)
  · intro pool hre
    exact (slotInv_filter (MCBA_CTX_FREE N) pool 0
      (poolReachable_slotInv N pool hre)).1

/-!
## Theorems
-/

/-- C4: for every standard identifier in 0..=0x7FF, decoding the encoded
frame (extended = false) yields the same identifier with the extended flag
false; for every extended identifier in 0..=0x1FFFFFFF, decoding the
encoded frame (extended = true) yields the same identifier with the
extended flag true. -/
theorem mcba_id_roundtrip :
    (∀ id : Nat, id ≤ 0x7FF →
      mcba_decode_bytes (mcba_encode_id id false) = (id, false)) ∧
    (∀ id : Nat, id ≤ 0x1FFFFFFF →
      mcba_decode_bytes (mcba_encode_id id true) = (id, true)) := by
  constructor
  · intro id h
    have h8 : ((id % 8) * 32 / 8) % 2 = 0 := by omega
    simp [mcba_decode_bytes, mcba_encode_id, mcba_decode_id, MCBA_RX_IS_EXID,
          MCBA_SET_S_SIDH, MCBA_SET_S_SIDL, MCBA_CAN_GET_SID, h8]
    omega
  · intro id h
    have h8 : ((8 + (id / 65536) % 4 + ((id / 262144) % 8) * 32) / 8) % 2 = 1 := by
      omega
    simp [mcba_decode_bytes, mcba_encode_id, mcba_decode_id, MCBA_RX_IS_EXID,
          MCBA_SET_E_SIDH, MCBA_SET_E_SIDL, MCBA_SET_EIDH, MCBA_SET_EIDL,
          MCBA_CAN_GET_EID, h8]
    omega

/-- Witness for C4 at the concrete identifiers 0x123 (standard) and
0x15555555 (extended). -/
theorem mcba_id_roundtrip_witness :
    mcba_decode_bytes (mcba_encode_id 0x123 false) = (0x123, false) ∧
    mcba_decode_bytes (mcba_encode_id 0x15555555 true) = (0x15555555, true) :=
  ⟨mcba_id_roundtrip.1 0x123 (by decide),
   mcba_id_roundtrip.2 0x15555555 (by decide)⟩

/-- C1: the receive decoder does not reject or clamp a masked DLC above 8.
At dlc byte 0x0F the masked DLC is 15: `can_dlc` is set to 15, which
exceeds 8 and is exactly the length the code hands to `memcpy`, so more
than 8 payload bytes are copied from the 8-byte message payload. -/
theorem mcba_process_can_dlc_not_clamped :
    (mcba_usb_process_can
      { sidh := 0, sidl := 0, eidh := 0, eidl := 0, dlc := 15,
        data := [1, 2, 3, 4, 5, 6, 7, 8] }).can_dlc = 15 ∧
    8 < (mcba_usb_process_can
      { sidh := 0, sidl := 0, eidh := 0, eidl := 0, dlc := 15,
        data := [1, 2, 3, 4, 5, 6, 7, 8] }).can_dlc := by
  constructor
  · rfl
  · decide

/-- C3: the untested-firmware warning is not emitted if and only if the
reported pair equals the tested baseline.  With baseline pair (2, 0), a
first keep-alive reporting version (2, 1) differs from the baseline, yet
the handler's warn condition `!(base_major == major) && (base_minor ==
minor)` is false, so no warning is printed; likewise on the CAN side with
baseline (2, 3) and reported version (2, 4).  The condition only fires
when the major differs while the minor coincides. -/
theorem mcba_untested_warn_misses_mismatch :
    (((2 : Nat), (1 : Nat)) ≠ ((2 : Nat), (0 : Nat)) ∧
      (mcba_usb_process_keep_alive_usb 2 0 mcbaProbeInit
        { termination_state := 0, soft_ver_major := 2,
          soft_ver_minor := 1 }).2.2 = false) ∧
    (((2 : Nat), (4 : Nat)) ≠ ((2 : Nat), (3 : Nat)) ∧
      (mcba_usb_process_keep_alive_can 2 3 mcbaProbeInit
        { tx_err_cnt := 0, rx_err_cnt := 0, soft_ver_major := 2,
          soft_ver_minor := 4 }).2.2 = false) := by
  decide

/-- C7: a CAN-controller keep-alive report unconditionally overwrites the
stored error counters with the report's pair, and `mcba_net_get_berr_counter`
then returns exactly that pair; a second keep-alive updates the counters
again and, provided the first report's version pair was not the undefined
sentinel pair, does not re-trigger the first-seen version notification. -/
theorem mcba_can_keep_alive_counters (baseMajor baseMinor : Nat)
    (s : McbaPriv) (m1 m2 : McbaUsbMsgKeepAliveCan)
    (h : ¬(m1.soft_ver_major = MCBA_VER_UNDEFINED ∧
           m1.soft_ver_minor = MCBA_VER_UNDEFINED)) :
    mcba_net_get_berr_counter
        (mcba_usb_process_keep_alive_can baseMajor baseMinor s m1).1 =
      (m1.tx_err_cnt, m1.rx_err_cnt) ∧
    mcba_net_get_berr_counter
        (mcba_usb_process_keep_alive_can baseMajor baseMinor
          (mcba_usb_process_keep_alive_can baseMajor baseMinor s m1).1 m2).1 =
      (m2.tx_err_cnt, m2.rx_err_cnt) ∧
    (mcba_usb_process_keep_alive_can baseMajor baseMinor
        (mcba_usb_process_keep_alive_can baseMajor baseMinor s m1).1 m2).2.1 =
      false := by
  refine ⟨rfl, rfl, ?_⟩
  simp only [mcba_usb_process_keep_alive_can, Bool.and_eq_false_iff,
             beq_eq_false_iff_ne, ne_eq]
  tauto

/-- Witness for C7: the spec's end-to-end scenario with first report
(tx_err = 3, rx_err = 1, version 2.3) and second report (tx_err = 5,
rx_err = 1, version 2.3), starting from the probed initial state. -/
theorem mcba_can_keep_alive_counters_witness :
    ¬(((2 : Nat) = MCBA_VER_UNDEFINED) ∧ ((3 : Nat) = MCBA_VER_UNDEFINED)) ∧
    (mcba_net_get_berr_counter
        (mcba_usb_process_keep_alive_can 2 3 mcbaProbeInit
          { tx_err_cnt := 3, rx_err_cnt := 1, soft_ver_major := 2,
            soft_ver_minor := 3 }).1 = (3, 1) ∧
      mcba_net_get_berr_counter
          (mcba_usb_process_keep_alive_can 2 3
            (mcba_usb_process_keep_alive_can 2 3 mcbaProbeInit
              { tx_err_cnt := 3, rx_err_cnt := 1, soft_ver_major := 2,
                soft_ver_minor := 3 }).1
            { tx_err_cnt := 5, rx_err_cnt := 1, soft_ver_major := 2,
              soft_ver_minor := 3 }).1 = (5, 1) ∧
      (mcba_usb_process_keep_alive_can 2 3
          (mcba_usb_process_keep_alive_can 2 3 mcbaProbeInit
            { tx_err_cnt := 3, rx_err_cnt := 1, soft_ver_major := 2,
              soft_ver_minor := 3 }).1
          { tx_err_cnt := 5, rx_err_cnt := 1, soft_ver_major := 2,
            soft_ver_minor := 3 }).2.1 = false) :=
  ⟨by decide,
   mcba_can_keep_alive_counters 2 3 mcbaProbeInit
     { tx_err_cnt := 3, rx_err_cnt := 1, soft_ver_major := 2,
       soft_ver_minor := 3 }
     { tx_err_cnt := 5, rx_err_cnt := 1, soft_ver_major := 2,
       soft_ver_minor := 3 }
     (by decide)⟩

/-- C8 counterexample: the stored USB firmware version fields are not
first-sighting-only latches.  Starting from the probed initial state, a
first USB keep-alive reports version (1, 1); a second reports (3, 7); the
stored pair after the second report is (3, 7), not the first-seen (1, 1),
so a subsequent report did change the stored fields. -/
theorem mcba_usb_version_not_latched :
    (mcba_usb_process_keep_alive_usb 2 0
        (mcba_usb_process_keep_alive_usb 2 0 mcbaProbeInit
          { termination_state := 0, soft_ver_major := 1,
            soft_ver_minor := 1 }).1
        { termination_state := 0, soft_ver_major := 3,
          soft_ver_minor := 7 }).1.pic_usb_sw_ver_major = 3 ∧
    (3 : Nat) ≠ 1 := by
  decide

/-- C8 as amended: the stored USB firmware version fields are overwritten
on every USB keep-alive report with the reported pair (and the termination
state with the reported one); only the first-seen notification is gated on
the stored pair still being undefined. -/
theorem mcba_usb_version_update_every_report (baseMajor baseMinor : Nat)
    (s : McbaPriv) (m : McbaUsbMsgKeepAliveUsb) :
    (mcba_usb_process_keep_alive_usb baseMajor baseMinor s m).1.pic_usb_sw_ver_major =
      m.soft_ver_major ∧
    (mcba_usb_process_keep_alive_usb baseMajor baseMinor s m).1.pic_usb_sw_ver_minor =
      m.soft_ver_minor ∧
    (mcba_usb_process_keep_alive_usb baseMajor baseMinor s m).1.termination_state =
      m.termination_state ∧
    ((mcba_usb_process_keep_alive_usb baseMajor baseMinor s m).2.1 = true ↔
      (s.pic_usb_sw_ver_major = MCBA_VER_UNDEFINED ∧
       s.pic_usb_sw_ver_minor = MCBA_VER_UNDEFINED)) := by
  refine ⟨rfl, rfl, rfl, ?_⟩
  simp [mcba_usb_process_keep_alive_usb]

/-- C5: the set-bittiming operation succeeds (with computed fields and a
change-bitrate command) for exactly the 18 documented bitrates and returns
`-EINVAL` for any other requested bitrate, such as 10000 or 1000001, with
no fields produced and no command sent. -/
theorem mcba_set_bittiming_supported :
    (∀ b, b ∈ mcbaSupportedBitrates →
      ∃ bt cmd, mcba_net_set_bittiming b = .ok (bt, cmd)) ∧
    (∀ b, b ∉ mcbaSupportedBitrates →
      mcba_net_set_bittiming b = .error (-22)) ∧
    mcbaSupportedBitrates.length = 18 ∧
    mcbaSupportedBitrates.Nodup ∧
    mcba_net_set_bittiming 10000 = .error (-22) ∧
    mcba_net_set_bittiming 1000001 = .error (-22) := by
  refine ⟨?_, ?_, by decide, by decide, by rfl, by rfl⟩
  · intro b hb
    fin_cases hb <;> exact ⟨_, _, rfl⟩
  · intro b hb
    simp only [mcbaSupportedBitrates, List.mem_cons, List.not_mem_nil,
      or_false, not_or] at hb
    obtain ⟨n01, n02, n03, n04, n05, n06, n07, n08, n09, n10, n11, n12,
      n13, n14, n15, n16, n17, n18⟩ := hb
    unfold mcba_net_set_bittiming
    rw [if_neg n01, if_neg n02, if_neg n03, if_neg n04, if_neg n05,
      if_neg n06, if_neg n07, if_neg n08, if_neg n09, if_neg n10,
      if_neg n11, if_neg n12, if_neg n13, if_neg n14, if_neg n15,
      if_neg n16, if_neg n17, if_neg n18]

/-- Witness for C5 at the supported bitrate 20000 and the unsupported
bitrate 10000. -/
theorem mcba_set_bittiming_supported_witness :
    (∃ bt cmd, mcba_net_set_bittiming 20000 = .ok (bt, cmd)) ∧
    mcba_net_set_bittiming 10000 = .error (-22) :=
  ⟨mcba_set_bittiming_supported.1 20000 (by decide),
   mcba_set_bittiming_supported.2.1 10000 (by decide)⟩

/-- C9: within unsigned 32-bit range, the bit-timing fields derived from a
segment quadruple and prescaler satisfy, in integer arithmetic with the
40 MHz clock: tq = brp * 1000 / (clock / 1000000) nanoseconds,
bitrate = 1000000000 / ((sjw + prop + seg1 + seg2) * tq), and
sample_point = (sjw + prop + seg1) * 1000 / (sjw + prop + seg1 + seg2). -/
theorem mcba_calc_bittiming_formulas (sjw prop seg1 seg2 brp : Nat)
    (hbrp : brp * 1000 < 4294967296)
    (hsum : sjw + prop + seg1 + seg2 < 4294967296)
    (hsp : (sjw + prop + seg1) * 1000 < 4294967296)
    (hmul : (sjw + prop + seg1 + seg2) *
        (brp * 1000 / (MCBA_CAN_CLOCK / 1000000)) < 4294967296) :
    (mcba_net_calc_bittiming sjw prop seg1 seg2 brp).tq =
      brp * 1000 / (MCBA_CAN_CLOCK / 1000000) ∧
    (mcba_net_calc_bittiming sjw prop seg1 seg2 brp).bitrate =
      1000000000 / ((sjw + prop + seg1 + seg2) *
        (brp * 1000 / (MCBA_CAN_CLOCK / 1000000))) ∧
    (mcba_net_calc_bittiming sjw prop seg1 seg2 brp).sample_point =
      (sjw + prop + seg1) * 1000 / (sjw + prop + seg1 + seg2) := by
  have e1 : u32 (brp * 1000) = brp * 1000 := Nat.mod_eq_of_lt hbrp
  have etq : u32 (brp * 1000 / (MCBA_CAN_CLOCK / 1000000)) =
      brp * 1000 / (MCBA_CAN_CLOCK / 1000000) :=
    Nat.mod_eq_of_lt (lt_of_le_of_lt (Nat.div_le_self _ _) hbrp)
  have e2 : u32 (sjw + prop) = sjw + prop := Nat.mod_eq_of_lt (by omega)
  have e3 : u32 (sjw + prop + seg1) = sjw + prop + seg1 :=
    Nat.mod_eq_of_lt (by omega)
  have e4 : u32 (sjw + prop + seg1 + seg2) = sjw + prop + seg1 + seg2 :=
    Nat.mod_eq_of_lt (by omega)
  have emul : u32 ((sjw + prop + seg1 + seg2) *
      (brp * 1000 / (MCBA_CAN_CLOCK / 1000000))) =
      (sjw + prop + seg1 + seg2) * (brp * 1000 / (MCBA_CAN_CLOCK / 1000000)) :=
    Nat.mod_eq_of_lt hmul
  have ebr : u32 (1000000000 / ((sjw + prop + seg1 + seg2) *
      (brp * 1000 / (MCBA_CAN_CLOCK / 1000000)))) =
      1000000000 / ((sjw + prop + seg1 + seg2) *
        (brp * 1000 / (MCBA_CAN_CLOCK / 1000000))) :=
    Nat.mod_eq_of_lt (lt_of_le_of_lt (Nat.div_le_self _ _) (by norm_num))
  have esp1 : u32 ((sjw + prop + seg1) * 1000) = (sjw + prop + seg1) * 1000 :=
    Nat.mod_eq_of_lt hsp
  have esp2 : u32 ((sjw + prop + seg1) * 1000 / (sjw + prop + seg1 + seg2)) =
      (sjw + prop + seg1) * 1000 / (sjw + prop + seg1 + seg2) :=
    Nat.mod_eq_of_lt (lt_of_le_of_lt (Nat.div_le_self _ _) hsp)
  refine ⟨?_, ?_, ?_⟩ <;>
    simp only [mcba_net_calc_bittiming, e1, etq, e2, e3, e4, emul, ebr,
      esp1, esp2]

/-- Witness for C9 at the 20 kbps table entry (sjw 1, prop 5, seg1 8,
seg2 6, brp 100). -/
theorem mcba_calc_bittiming_formulas_witness :
    (100 * 1000 < 4294967296 ∧ 1 + 5 + 8 + 6 < 4294967296 ∧
      (1 + 5 + 8) * 1000 < 4294967296 ∧
      (1 + 5 + 8 + 6) * (100 * 1000 / (MCBA_CAN_CLOCK / 1000000)) <
        4294967296) ∧
    ((mcba_net_calc_bittiming 1 5 8 6 100).tq =
      100 * 1000 / (MCBA_CAN_CLOCK / 1000000) ∧
    (mcba_net_calc_bittiming 1 5 8 6 100).bitrate =
      1000000000 / ((1 + 5 + 8 + 6) *
        (100 * 1000 / (MCBA_CAN_CLOCK / 1000000))) ∧
    (mcba_net_calc_bittiming 1 5 8 6 100).sample_point =
      (1 + 5 + 8) * 1000 / (1 + 5 + 8 + 6)) :=
  ⟨⟨by decide, by decide, by decide, by decide⟩,
   mcba_calc_bittiming_formulas 1 5 8 6 100 (by decide) (by decide)
     (by decide) (by decide)⟩

/-- Witness for C2 at capacity 3: the full pool [0, 1, 2] with slot 1
released admits exactly one more acquire, and the initial pool is a
reachable pool with pairwise-distinct live indices. -/
theorem mcba_ctx_pool_witness :
    ((mcba_usb_get_free_ctx 3 (mcba_usb_free_ctx 3 [0, 1, 2] 1)).1.isSome =
       true ∧
     (mcba_usb_get_free_ctx 3
       (mcba_usb_get_free_ctx 3 (mcba_usb_free_ctx 3 [0, 1, 2] 1)).2).1 =
       none) ∧
    ((mcba_init_ctx 3).filter (fun x => x != MCBA_CTX_FREE 3)).Nodup :=
  ⟨(mcba_ctx_pool 3).2.1 [0, 1, 2] 1 (by decide) (by decide) (by decide),
   (mcba_ctx_pool 3).2.2 (mcba_init_ctx 3) PoolReachable.init⟩

/-- C6: on a buffer of `len` bytes the receive dispatcher processes
exactly the `len / msgSize` complete leading records, and reports exactly
one format error when `len` is not a multiple of the record size and none
when it is. -/
theorem mcba_read_bulk_records (msgSize : Nat) (hS : 0 < msgSize)
    (len : Nat) :
    mcba_usb_read_bulk_loop msgSize hS len =
      (len / msgSize, if len % msgSize = 0 then 0 else 1) := by
  induction len using Nat.strong_induction_on with
  | _ len ih =>
    by_cases h0 : len = 0
    · subst h0
      unfold mcba_usb_read_bulk_loop
      simp
    · by_cases hle : msgSize ≤ len
      · unfold mcba_usb_read_bulk_loop
        rw [dif_neg h0, dif_pos hle, ih (len - msgSize) (by omega)]
        have hdiv : len / msgSize = (len - msgSize) / msgSize + 1 :=
          Nat.div_eq_sub_div hS hle
        have hmod : len % msgSize = (len - msgSize) % msgSize :=
          Nat.mod_eq_sub_mod hle
        rw [hdiv, hmod]
      · unfold mcba_usb_read_bulk_loop
        rw [dif_neg h0, dif_neg hle]
        have h1 : len / msgSize = 0 := Nat.div_eq_of_lt (by omega)
        have h2 : len % msgSize = len := Nat.mod_eq_of_lt (by omega)
        simp [h1, h2, h0]

/-- Witness for C6 with 19-byte records: a 45-byte buffer yields two
complete records and one format error; a 38-byte buffer yields two records
and no error. -/
theorem mcba_read_bulk_records_witness :
    (mcba_usb_read_bulk_loop 19 (by decide) 45 =
      (45 / 19, if 45 % 19 = 0 then 0 else 1)) ∧
    (mcba_usb_read_bulk_loop 19 (by decide) 38 =
      (38 / 19, if 38 % 19 = 0 then 0 else 1)) :=
  ⟨mcba_read_bulk_records 19 (by decide) 45,
   mcba_read_bulk_records 19 (by decide) 38⟩

/-- C10: when a transmit call acquires a context (the pool has a free
slot) but the outcome is any of the three failures, the call returns
`NETDEV_TX_OK`, increments `tx_dropped` by one, never calls
`mcba_usb_free_ctx`, and leaves the pool exactly as the acquire left it:
the number of free slots is one less than before the call, so the
acquired slot stays occupied. -/
theorem mcba_xmit_failure_leaks_ctx (N : Nat) (pool : List Nat)
    (txDropped : Nat) (outcome : TxOutcome)
    (hpool : pool.length = N)
    (hacq : (mcba_usb_get_free_ctx N pool).1.isSome = true)
    (hfail : outcome ≠ TxOutcome.success) :
    (mcba_usb_xmit N pool txDropped outcome).ret = NetdevTx.TX_OK ∧
    (mcba_usb_xmit N pool txDropped outcome).txDropped = txDropped + 1 ∧
    (mcba_usb_xmit N pool txDropped outcome).ctxFreed = false ∧
    (mcba_usb_xmit N pool txDropped outcome).pool =
      (mcba_usb_get_free_ctx N pool).2 ∧
    (mcba_usb_xmit N pool txDropped outcome).pool.count (MCBA_CTX_FREE N) +
        1 = pool.count (MCBA_CTX_FREE N) := by
  have hmem : MCBA_CTX_FREE N ∈ pool := by
    by_contra hmem
    have hnone := acquireAux_none (MCBA_CTX_FREE N) pool
      (fun x hx hxv => hmem (hxv ▸ hx)) 0
    have : (mcba_usb_get_free_ctx N pool).1 = none := by
      unfold mcba_usb_get_free_ctx
      rw [hnone]
    rw [this] at hacq
    simp at hacq
  have hle : 0 + pool.length ≤ MCBA_CTX_FREE N := by
    simp [hpool, MCBA_CTX_FREE]
  obtain ⟨_, hcount⟩ := acquireAux_some (MCBA_CTX_FREE N) pool 0 hmem hle
  obtain ⟨r, hr⟩ := Option.isSome_iff_exists.mp hacq
  have hx : mcba_usb_xmit N pool txDropped outcome =
      ⟨NetdevTx.TX_OK, (mcba_usb_get_free_ctx N pool).2, txDropped + 1,
       false⟩ := by
    cases outcome with
    | success => exact absurd rfl hfail
    | urbAllocFail => simp [mcba_usb_xmit, hr]
    | bufAllocFail => simp [mcba_usb_xmit, hr]
    | submitFail err => simp [mcba_usb_xmit, hr]
  rw [hx]
  exact ⟨rfl, rfl, rfl, rfl, hcount⟩

/-- Witness for C10 at capacity 2, the all-free pool, and a URB
allocation failure. -/
theorem mcba_xmit_failure_leaks_ctx_witness :
    (mcba_usb_xmit 2 (mcba_init_ctx 2) 0 TxOutcome.urbAllocFail).ret =
      NetdevTx.TX_OK ∧
    (mcba_usb_xmit 2 (mcba_init_ctx 2) 0 TxOutcome.urbAllocFail).txDropped =
      0 + 1 ∧
    (mcba_usb_xmit 2 (mcba_init_ctx 2) 0 TxOutcome.urbAllocFail).ctxFreed =
      false ∧
    (mcba_usb_xmit 2 (mcba_init_ctx 2) 0 TxOutcome.urbAllocFail).pool =
      (mcba_usb_get_free_ctx 2 (mcba_init_ctx 2)).2 ∧
    (mcba_usb_xmit 2 (mcba_init_ctx 2) 0
        TxOutcome.urbAllocFail).pool.count (MCBA_CTX_FREE 2) + 1 =
      (mcba_init_ctx 2).count (MCBA_CTX_FREE 2) :=
  mcba_xmit_failure_leaks_ctx 2 (mcba_init_ctx 2) 0 TxOutcome.urbAllocFail
    (by decide) (by decide) (by decide)

end McbaUsb
